import Mathlib

/-!
Verification of the workflow state machine of the BigQuery LangGraph agent
notebook (`bq_langraph_agent.ipynb`): the conversation state and its merge
rule, the three graph nodes (`get_schema_node`, `data_chatbot_node` and the
tool-execution node), the router `get_state`, the graph wiring, and a
fuel-bounded executor with checkpoint-style state threading.
-/

namespace BqAgent

/-- Message roles, mirroring the langchain message classes used in the
notebook: `HumanMessage`, `AIMessage`, `ToolMessage`, `SystemMessage`. -/
inductive Role
  | human
  | assistant
  | tool
  | system
deriving DecidableEq, Repr

/-- One entry of `AIMessage.tool_calls`: a tool name, structured arguments
(a keyword-to-value map; the only argument used here is `query`), and the
tool-call id correlating a later tool result to this invocation. -/
structure ToolCall where
  name : String
  args : List (String × String)
  id : String
deriving DecidableEq, Repr

/-- A conversational message: role, textual content, the requested tool
invocations (empty except on assistant messages), and the correlation id
(set only on tool-result messages). -/
structure Message where
  role : Role
  content : String
  tool_calls : List ToolCall
  tool_call_id : Option String
deriving DecidableEq, Repr

def mkAI (content : String) (tcs : List ToolCall) : Message :=
  { role := Role.assistant, content := content, tool_calls := tcs, tool_call_id := none }

def mkHuman (content : String) : Message :=
  { role := Role.human, content := content, tool_calls := [], tool_call_id := none }

def mkSystem (content : String) : Message :=
  { role := Role.system, content := content, tool_calls := [], tool_call_id := none }

def mkTool (content : String) (id : String) : Message :=
  { role := Role.tool, content := content, tool_calls := [], tool_call_id := some id }

/-- The LangGraph workflow state from the source (`class State(TypedDict)`):
`messages` (annotated with the `add_messages` reducer) and the optional
cached `dataset_schema`. -/
structure State where
  messages : List Message
  dataset_schema : Option String
deriving DecidableEq, Repr

/-- A node's returned partial state update (the dict a node returns).
`messages` lists the new messages the node contributes; `dataset_schema`
is `some v` when the node's dict carries the `dataset_schema` key with
value `v`, and `none` when the key is absent from the returned dict. -/
structure Delta where
  messages : List Message
  dataset_schema : Option String
deriving DecidableEq, Repr

/-- Modelled from the spec: the `add_messages` reducer is langgraph library
code not present in the source files; the notebook documents it as a reducer
that will "append ... messages to whatever messages are already in the state
(rather than overwriting them)", and the spec states the same merge rule
(new messages are merged by concatenation). -/
def add_messages (xs ys : List Message) : List Message := xs ++ ys

/-- Modelled from the spec: applying a node's returned dict to the state
through the reducers — the `messages` field accumulates via `add_messages`,
every other field (here `dataset_schema`) is overwritten when the returned
dict carries it and left unchanged when it does not. -/
def applyDelta (s : State) (d : Delta) : State :=
  { messages := add_messages s.messages d.messages,
    dataset_schema :=
      match d.dataset_schema with
      | some v => some v
      | none => s.dataset_schema }

/-- The router's codomain: `get_state` in the source returns either the node
name string `"execute_sql"` or the langgraph `END` sentinel. -/
inductive Route
  | execute_sql
  | END
deriving DecidableEq, Repr

/-- `get_state` from the source: reads `state["messages"][-1]`; if it is an
`AIMessage` with a non-empty `tool_calls` list and some tool call is named
`"execute_query_tool"`, routes to `"execute_sql"`, otherwise returns `END`.
Indexing `[-1]` on an empty message list would raise in Python, so the
embedding returns `none` in that (unreachable) case. -/
def get_state (s : State) : Option Route :=
  s.messages.getLast?.map fun last =>
    if last.role = Role.assistant ∧ last.tool_calls ≠ [] then
      if last.tool_calls.any (fun tc => tc.name == "execute_query_tool") then
        Route.execute_sql
      else
        Route.END
    else
      Route.END

/-- One character of `json.dumps` string escaping: the double quote and the
backslash are escaped, and the common control characters newline, carriage
return and tab become their two-character escapes. (Other control characters
and non-ASCII escaping play no role for the payloads produced here.) -/
def jsonEscapeChar (c : Char) : List Char :=
  if c = Char.ofNat 34 then [Char.ofNat 92, Char.ofNat 34]
  else if c = Char.ofNat 92 then [Char.ofNat 92, Char.ofNat 92]
  else if c = Char.ofNat 10 then [Char.ofNat 92, Char.ofNat 110]
  else if c = Char.ofNat 13 then [Char.ofNat 92, Char.ofNat 114]
  else if c = Char.ofNat 9 then [Char.ofNat 92, Char.ofNat 116]
  else [c]

def jsonEscapeL : List Char → List Char
  | [] => []
  | c :: cs => jsonEscapeChar c ++ jsonEscapeL cs

def jsonEscape (s : String) : String := String.mk (jsonEscapeL s.data)

/-- Inverse of one escape character, used by the one-level reader below. -/
def jsonDecodeChar (d : Char) : Char :=
  if d = Char.ofNat 110 then Char.ofNat 10
  else if d = Char.ofNat 114 then Char.ofNat 13
  else if d = Char.ofNat 116 then Char.ofNat 9
  else d

def jsonUnescape : List Char → List Char
  | [] => []
  | c :: cs =>
    if c = Char.ofNat 92 then
      match cs with
      | [] => []
      | d :: cs2 => jsonDecodeChar d :: jsonUnescape cs2
    else c :: jsonUnescape cs

/-- The JSON values the tool actually serializes: a string, or a flat object
with string values — `json.dumps` is only ever applied to these two shapes
in the source. -/
inductive JVal
  | str (s : String)
  | objStr (fields : List (String × String))
deriving DecidableEq, Repr

def jsonQuote (t : String) : String := "\x22" ++ jsonEscape t ++ "\x22"

/-- `json.dumps` (default separators) restricted to the two shapes above. -/
def jsonDumps : JVal → String
  | JVal.str s => jsonQuote s
  | JVal.objStr fs =>
      "\x7b" ++ String.intercalate ", "
        (fs.map (fun p => jsonQuote p.1 ++ ": " ++ jsonQuote p.2)) ++ "\x7d"

/-- A one-level JSON string-literal reader: accepts exactly a payload of the
form quote, escaped body, quote and returns the unescaped body. Used to state
that parsing the success payload once yields a plain string, not rows. -/
def jsonParseStrL : List Char → Option (List Char)
  | [] => none
  | c :: rest =>
    if c = Char.ofNat 34 ∧ rest ≠ [] ∧ rest.getLast? = some (Char.ofNat 34) then
      some (jsonUnescape rest.dropLast)
    else
      none

/-- A value in a BigQuery row dict, as far as `str(r)` is concerned: an
integer or a string. -/
inductive PyVal
  | int (n : Int)
  | str (s : String)
deriving DecidableEq, Repr

/-- One character of Python `repr` string escaping for a chosen quote
character: backslash and the quote character are escaped; newline, carriage
return and tab become their two-character escapes. -/
def pyEscapeChar (quote : Char) (c : Char) : List Char :=
  if c = Char.ofNat 92 then [Char.ofNat 92, Char.ofNat 92]
  else if c = quote then [Char.ofNat 92, quote]
  else if c = Char.ofNat 10 then [Char.ofNat 92, Char.ofNat 110]
  else if c = Char.ofNat 13 then [Char.ofNat 92, Char.ofNat 114]
  else if c = Char.ofNat 9 then [Char.ofNat 92, Char.ofNat 116]
  else [c]

def pyEscapeL (quote : Char) : List Char → List Char
  | [] => []
  | c :: cs => pyEscapeChar quote c ++ pyEscapeL quote cs

/-- Python `repr` of a string: single-quoted by default, double-quoted when
the string contains a single quote and no double quote. -/
def pyReprStr (s : String) : String :=
  let sq := Char.ofNat 39
  let dq := Char.ofNat 34
  let quote := if s.data.contains sq ∧ ¬ s.data.contains dq then dq else sq
  String.mk (quote :: (pyEscapeL quote s.data ++ [quote]))

def pyReprVal : PyVal → String
  | PyVal.int n => toString n
  | PyVal.str s => pyReprStr s

/-- Python `str` of one row dict (`dict(row)` in the source). -/
def pyReprRow (row : List (String × PyVal)) : String :=
  "\x7b" ++ String.intercalate ", "
    (row.map (fun p => pyReprStr p.1 ++ ": " ++ pyReprVal p.2)) ++ "\x7d"

/-- Python `str(r)` where `r = [dict(row) for row in result]`. -/
def pyReprRows (rows : List (List (String × PyVal))) : String :=
  "[" ++ String.intercalate ", " (rows.map pyReprRow) ++ "]"

/-- A result row, keyed by column name. -/
abbrev Row := List (String × PyVal)

/-- `execute_query_tool` from the source. `backend` stands for the BigQuery
client's `query_and_wait`: `Except.ok rows` models a successful query whose
rows convert to the given dicts, `Except.error e` models a raised exception
whose `str` is `e`. On success the source returns `str(json.dumps(str(r)))`
— the outer `str` is the identity on a string — and on any exception it
returns `json.dumps` of a one-field object mapping the key `BigQuery error`
to the f-string `BigQuery Error: ` followed by the exception text. -/
def execute_query_tool (backend : String → Except String (List Row))
    (query : String) : String :=
  match backend query with
  | Except.ok result => jsonDumps (JVal.str (pyReprRows result))
  | Except.error e => jsonDumps (JVal.objStr [("BigQuery error", "BigQuery Error: " ++ e)])

/-- The fixed prompt text of `sys_message` in the source, up to its schema
placeholder. -/
def sysMessagePre : String :=
  "You are an expert in answering questions users have about their data stored in BigQuery. Your job is to execute the relevant SQL statements against BigQuery tables to get the best answer. The user is only interested in seeing the final result from BigQuery.\n\n1. If the user request is reasonable and compatible with the schema, YOU MUST FIRST call the `execute_query_tool`to get the result.\n    When generating the SQL query:\n    Use meaningful aliases for column names.    \n    Limit results to 5 rows (unless specified). Order results for clarity.\n    Select only necessary columns; avoid SELECT *.\n    Use valid BigQuery SQL (no escape characters).\n    Use only SELECT statements (no DML).    \n\n2. Call the `execute_query_tool` tool to execute the generated SQL query. If the query fails, analyze the error message and attempt to correct the SQL.  If correction is not possible, inform the user of the error and its likely cause.\n\n3. Only once you have the result from BigQuery, call the `SubmitFinalAnswer` tool to present the final results to the user and terminate the conversation. Do not call any other tools after this.\n\nYou will use the following schema for all queries and all SQL must conform to this schema: "

/-- The fixed prompt text of `sys_message` in the source, after its schema
placeholder. -/
def sysMessagePost : String :=
  "\n\n**Example:**\nIf a user asks: \x27which is the most expensive item on the menu?\x27 you should:\n1. Call the execute_query_tool to execute SQL: \x27SELECT menu_name, menu_price as price FROM `dataset_name.choc_ai_test.menu` ORDER BY menu_price DESC LIMIT 1\x27\n2. Only then can you call SubmitFinalAnswer tool to respond to the user with the result of this query in natural language and end the conversation.\n3. Once the SubmitFinalAnswer tool has been called, you must ALWAYS end the workflow. Do not call any other tools. \n\n"

/-- `sys_message.format(schema=schema)` from the source: the fixed prompt
with the schema value spliced in at the placeholder. -/
def sys_message (schema : String) : String := sysMessagePre ++ schema ++ sysMessagePost

/-- Python string formatting of `state["dataset_schema"]`: the value when
present, the text `None` when the field is `None`. -/
def schemaText : Option String → String
  | some s => s
  | none => "None"

/-- `get_schema_node` from the source: when `state.get("dataset_schema")` is
`None` it calls `get_schema()` (whose serialized result is the `fetched`
argument here) and returns a dict setting `dataset_schema` and appending one
`AIMessage`; otherwise it returns only the cache-note message and leaves the
schema key out of the returned dict. -/
def get_schema_node (fetched : String) (s : State) : Delta :=
  match s.dataset_schema with
  | none =>
      { messages := [mkAI "Schema retrieved from BigQuery" []],
        dataset_schema := some fetched }
  | some _ =>
      { messages := [mkAI "Schema retrieved from memory" []],
        dataset_schema := none }

/-- Instruments the `get_schema()` backend metadata call inside
`get_schema_node`: the source reaches that call exactly when
`state.get("dataset_schema") is None`. -/
def schema_fetch_count (s : State) : Nat :=
  match s.dataset_schema with
  | none => 1
  | some _ => 0

/-- `data_chatbot_node` from the source: prepends a `SystemMessage` carrying
`sys_message.format(schema=state["dataset_schema"])` to the message history,
invokes the bound model once (`llm` stands for
`data_llm_with_tools.invoke`), and returns the single response message. -/
def data_chatbot_node (llm : List Message → Message) (s : State) : Delta :=
  { messages := [llm (mkSystem (sys_message (schemaText s.dataset_schema)) :: s.messages)],
    dataset_schema := none }

/-- Modelled from the spec: the `execute_sql` node is
`ToolNode([execute_query_tool])`, langgraph library code not present in the
source files. Per spec section 4.4, for each tool invocation in the last
message matching the registered executable tool it invokes the backend and
appends one tool-result message per invocation, correlated by invocation id
and preserving invocation order. -/
def tool_node (backend : String → Except String (List Row)) (s : State) : Delta :=
  match s.messages.getLast? with
  | none => { messages := [], dataset_schema := none }
  | some last =>
      { messages :=
          (last.tool_calls.filter (fun tc => tc.name == "execute_query_tool")).map
            (fun tc => mkTool (execute_query_tool backend ((tc.args.lookup "query").getD "")) tc.id),
        dataset_schema := none }

/-- The three real nodes added to the `StateGraph` in the source. -/
inductive Node
  | get_schema
  | data_chatbot
  | execute_sql
deriving DecidableEq, Repr

/-- `workflow.add_edge(START, "get_schema")`: every invocation of the graph
enters at the schema node. -/
def entry_point : Node := Node.get_schema

/-- The edges of the graph from the source: `get_schema → data_chatbot`
unconditionally, `data_chatbot` conditionally via `get_state` to
`execute_sql` or `END` (`none`), and `execute_sql → data_chatbot`
unconditionally. (The `none` answer of `get_state` on an empty history
cannot occur right after `data_chatbot` and is treated as `END`.) -/
def nextNode : Node → State → Option Node
  | Node.get_schema, _ => some Node.data_chatbot
  | Node.data_chatbot, s =>
      match get_state s with
      | some Route.execute_sql => some Node.execute_sql
      | _ => none
  | Node.execute_sql, _ => some Node.data_chatbot

/-- The external collaborators of one graph run: the bound reasoning model,
the query backend, and the serialized result of the schema metadata call. -/
structure Env where
  llm : List Message → Message
  backend : String → Except String (List Row)
  fetchedSchema : String

/-- One node execution: the node's returned dict applied to the state
through the reducers, paired with the number of backend metadata calls the
node issued (non-zero only for the schema node on a cache miss). -/
def execNode (env : Env) : Node → State → State × Nat
  | Node.get_schema, s =>
      (applyDelta s (get_schema_node env.fetchedSchema s), schema_fetch_count s)
  | Node.data_chatbot, s => (applyDelta s (data_chatbot_node env.llm s), 0)
  | Node.execute_sql, s => (applyDelta s (tool_node env.backend s), 0)

/-- How a run ended: normally at `END`, or by exhausting the step budget. -/
inductive Halt
  | done
  | limitExceeded
deriving DecidableEq, Repr

/-- The observable outcome of a run: how it halted, the last checkpointed
state (the state after the last completed node), the list of executed nodes
in order, and the total number of backend metadata calls issued. -/
structure RunOut where
  halt : Halt
  state : State
  trace : List Node
  calls : Nat
deriving DecidableEq, Repr

/-- Modelled from the spec: the executor loop (the langgraph runtime, not
present in the source files). It executes nodes sequentially from the
current node, following `nextNode`, checkpointing the merged state after
every node; `fuel` is the configured `recursion_limit` (step budget), and
when it is exhausted with a node still pending the run fails as
`limitExceeded`, reporting the last successfully checkpointed state. -/
def run (env : Env) : Nat → Node → State → RunOut
  | 0, _, s => ⟨Halt.limitExceeded, s, [], 0⟩
  | Nat.succ fuel, n, s =>
      let s2 := (execNode env n s).1
      let c := (execNode env n s).2
      match nextNode n s2 with
      | none => ⟨Halt.done, s2, [n], c⟩
      | some n2 =>
          let r := run env fuel n2 s2
          ⟨r.halt, r.state, n :: r.trace, c + r.calls⟩

/-- One user turn as driven by `data_chatbot_graph.stream` in the source:
the input dict carrying one `HumanMessage` is merged into the checkpointed
state through the reducers, then the graph runs from its entry point. -/
def runTurn (env : Env) (fuel : Nat) (user : String) (s : State) : RunOut :=
  run env fuel entry_point (applyDelta s { messages := [mkHuman user], dataset_schema := none })

/-- A reasoning-collaborator stub that always requests the query tool and
never terminates, as in the spec's step-budget property. -/
def loopingLLM : List Message → Message :=
  fun _ => mkAI "" [⟨"execute_query_tool", [("query", "SELECT 1")], "call_1"⟩]

/-- An environment built around the looping stub. -/
def loopEnv (backend : String → Except String (List Row)) (fetched : String) : Env :=
  { llm := loopingLLM, backend := backend, fetchedSchema := fetched }

/-- A tool call requesting the query tool, as the model emits it. -/
def execCall : ToolCall := ⟨"execute_query_tool", [("query", "SELECT 1")], "c2"⟩

/-- A tool call invoking the terminal `SubmitFinalAnswer` tool. -/
def submitCall : ToolCall := ⟨"SubmitFinalAnswer", [("final_answer", "42")], "c1"⟩

/-- An assistant message requesting only the query tool. -/
def execMsg : Message := mkAI "" [execCall]

/-- An assistant message invoking both the terminal tool and the query tool. -/
def mixedMsg : Message := mkAI "" [submitCall, execCall]

/-- A state whose last message invokes both `SubmitFinalAnswer` and
`execute_query_tool`. -/
def mixedState : State := ⟨[mixedMsg], some "sch"⟩

/-- A state whose last message invokes only `SubmitFinalAnswer`. -/
def submitOnlyState : State := ⟨[mkAI "" [submitCall]], some "sch"⟩

/-- A checkpointed state of a thread that already completed a first turn:
non-empty history and a cached schema. -/
def cachedState : State := ⟨[mkHuman "q1", mkAI "prior answer" []], some "cached-schema"⟩

/-- A fresh thread: no messages, no cached schema. -/
def emptyState : State := ⟨[], none⟩

/-- A concrete benign environment: the model immediately answers in free
text (no tool calls) and the backend returns no rows. -/
def cenv : Env :=
  { llm := fun _ => mkAI "final answer" [],
    backend := fun _ => Except.ok [],
    fetchedSchema := "schema-descriptor" }

/-- A concrete environment whose backend always raises. -/
def cenvErr : Env :=
  { llm := fun _ => mkAI "x" [],
    backend := fun _ => Except.error "boom",
    fetchedSchema := "schema-descriptor" }

/-- Concrete rows for evaluating the success path of the query tool. -/
def cRows : List Row := [[("menu_name", PyVal.str "Truffle"), ("menu_price", PyVal.int 7)]]

/-- A backend that always succeeds with `cRows`. -/
def okBackend : String → Except String (List Row) := fun _ => Except.ok cRows

/-- A state whose last message carries one query-tool call, for the tool
node. -/
def errState : State := ⟨[execMsg], some "sch"⟩

theorem applyDelta_messages (s : State) (d : Delta) :
    (applyDelta s d).messages = s.messages ++ d.messages := rfl

theorem execNode_messages (env : Env) (n : Node) (s : State) :
    ∃ ms, ((execNode env n s).1).messages = s.messages ++ ms := by
  cases n <;> exact ⟨_, rfl⟩

theorem execNode_schema_some (env : Env) (n : Node) (s : State) (x : String)
    (h : s.dataset_schema = some x) :
    ((execNode env n s).1).dataset_schema = some x := by
  cases n with
  | get_schema => simp [execNode, applyDelta, get_schema_node, h]
  | data_chatbot => simp [execNode, applyDelta, data_chatbot_node, h]
  | execute_sql =>
      cases hl : s.messages.getLast? <;>
        simp [execNode, applyDelta, tool_node, hl, h]

theorem execNode_calls_zero (env : Env) (n : Node) (s : State) (x : String)
    (h : s.dataset_schema = some x) : (execNode env n s).2 = 0 := by
  cases n with
  | get_schema => simp [execNode, schema_fetch_count, h]
  | data_chatbot => rfl
  | execute_sql => rfl

theorem run_preserves (env : Env) : ∀ (fuel : Nat) (n : Node) (s : State) (x : String),
    s.dataset_schema = some x →
    (run env fuel n s).state.dataset_schema = some x ∧ (run env fuel n s).calls = 0 := by
  intro fuel
  induction fuel with
  | zero => intro n s x h; exact ⟨h, rfl⟩
  | succ fuel ih =>
      intro n s x h
      have hs2 := execNode_schema_some env n s x h
      have hc := execNode_calls_zero env n s x h
      simp only [run]
      cases hn : nextNode n (execNode env n s).1 with
      | none => simp [hn, hs2, hc]
      | some n2 =>
          have h2 := ih n2 (execNode env n s).1 x hs2
          simp [hn, h2.1, h2.2, hc]

theorem run_trace_head (env : Env) (fuel : Nat) (n : Node) (s : State) :
    (run env (fuel + 1) n s).trace.head? = some n := by
  simp only [run]
  cases hn : nextNode n (execNode env n s).1 <;> simp [hn]

theorem exec_schema_node_some (env : Env) (s : State) :
    ∃ y, ((execNode env Node.get_schema s).1).dataset_schema = some y := by
  cases h : s.dataset_schema with
  | none => exact ⟨env.fetchedSchema, by simp [execNode, applyDelta, get_schema_node, h]⟩
  | some x => exact ⟨x, execNode_schema_some env Node.get_schema s x h⟩

theorem run_entry_schema_some (env : Env) (fuel : Nat) (s : State) :
    ∃ y, (run env (fuel + 1) entry_point s).state.dataset_schema = some y := by
  obtain ⟨y, hy⟩ := exec_schema_node_some env s
  simp only [run, entry_point]
  cases hn : nextNode Node.get_schema (execNode env Node.get_schema s).1 with
  | none => exact ⟨y, by simp [hn, hy]⟩
  | some n2 =>
      exact ⟨y, by simp [hn, (run_preserves env fuel n2 (execNode env Node.get_schema s).1 y hy).1]⟩

theorem get_state_concat (xs : List Message) (m : Message) (ds : Option String) :
    get_state ⟨xs ++ [m], ds⟩ = get_state ⟨[m], ds⟩ := by
  simp [get_state]

theorem loop_next_isSome (b : String → Except String (List Row)) (f : String)
    (n : Node) (s : State) :
    (nextNode n ((execNode (loopEnv b f) n s).1)).isSome = true := by
  cases n with
  | get_schema => rfl
  | execute_sql => rfl
  | data_chatbot =>
      have hmsg : ((execNode (loopEnv b f) Node.data_chatbot s).1).messages
          = s.messages ++ [loopingLLM (mkSystem (sys_message (schemaText s.dataset_schema)) :: s.messages)] := rfl
      have hds : ((execNode (loopEnv b f) Node.data_chatbot s).1).dataset_schema
          = s.dataset_schema := rfl
      have hstate : (execNode (loopEnv b f) Node.data_chatbot s).1
          = ⟨s.messages ++ [loopingLLM (mkSystem (sys_message (schemaText s.dataset_schema)) :: s.messages)], s.dataset_schema⟩ := by
        cases hq : (execNode (loopEnv b f) Node.data_chatbot s).1
        simp_all
      have hgs : get_state ((execNode (loopEnv b f) Node.data_chatbot s).1)
          = some Route.execute_sql := by
        rw [hstate, get_state_concat]
        rfl
      simp [nextNode, hgs]

theorem loop_run (b : String → Except String (List Row)) (f : String) :
    ∀ (fuel : Nat) (n : Node) (s : State),
    (run (loopEnv b f) fuel n s).halt = Halt.limitExceeded
    ∧ (run (loopEnv b f) fuel n s).trace.length = fuel
    ∧ ∃ t, s.messages ++ t = (run (loopEnv b f) fuel n s).state.messages := by
  intro fuel
  induction fuel with
  | zero => exact fun n s => ⟨rfl, rfl, [], by simp [run]⟩
  | succ fuel ih =>
      intro n s
      obtain ⟨n2, hn⟩ := Option.isSome_iff_exists.mp (loop_next_isSome b f n s)
      obtain ⟨ms, hms⟩ := execNode_messages (loopEnv b f) n s
      obtain ⟨h1, h2, t, ht⟩ := ih n2 ((execNode (loopEnv b f) n s).1)
      simp only [run]
      rw [hn]
      refine ⟨h1, by simp [h2], ms ++ t, ?_⟩
      rw [← List.append_assoc, ← hms, ht]

theorem jsonUnescape_esc (d : Char) (cs : List Char) :
    jsonUnescape (Char.ofNat 92 :: d :: cs) = jsonDecodeChar d :: jsonUnescape cs := by
  conv_lhs => rw [jsonUnescape]
  rw [if_pos rfl]

theorem jsonUnescape_ord (c : Char) (cs : List Char) (h : ¬ c = Char.ofNat 92) :
    jsonUnescape (c :: cs) = c :: jsonUnescape cs := by
  rw [jsonUnescape.eq_def]
  simp [h]

theorem jsonUnescape_jsonEscapeL : ∀ cs : List Char, jsonUnescape (jsonEscapeL cs) = cs := by
  intro cs
  induction cs with
  | nil => rfl
  | cons c cs ih =>
      show jsonUnescape (jsonEscapeChar c ++ jsonEscapeL cs) = c :: cs
      by_cases h34 : c = Char.ofNat 34
      · subst h34
        have hd : jsonDecodeChar (Char.ofNat 34) = Char.ofNat 34 := by decide
        simp [jsonEscapeChar, jsonUnescape_esc, hd, ih]
      · by_cases h92 : c = Char.ofNat 92
        · subst h92
          have hd : jsonDecodeChar (Char.ofNat 92) = Char.ofNat 92 := by decide
          simp [jsonEscapeChar, h34, jsonUnescape_esc, hd, ih]
        · by_cases h10 : c = Char.ofNat 10
          · subst h10
            have hd : jsonDecodeChar (Char.ofNat 110) = Char.ofNat 10 := by decide
            simp [jsonEscapeChar, h34, h92, jsonUnescape_esc, hd, ih]
          · by_cases h13 : c = Char.ofNat 13
            · subst h13
              have hd : jsonDecodeChar (Char.ofNat 114) = Char.ofNat 13 := by decide
              simp [jsonEscapeChar, h34, h92, h10, jsonUnescape_esc, hd, ih]
            · by_cases h9 : c = Char.ofNat 9
              · subst h9
                have hd : jsonDecodeChar (Char.ofNat 116) = Char.ofNat 9 := by decide
                simp [jsonEscapeChar, h34, h92, h10, h13, jsonUnescape_esc, hd, ih]
              · simp [jsonEscapeChar, h34, h92, h10, h13, h9, jsonUnescape_ord, ih]

theorem jsonDumps_str_data (t : String) :
    (jsonDumps (JVal.str t)).data = Char.ofNat 34 :: (jsonEscapeL t.data ++ [Char.ofNat 34]) := by
  show ("\x22" ++ jsonEscape t ++ "\x22").data = _
  rw [String.data_append, String.data_append]
  rfl

theorem jsonParse_dumps (t : String) :
    jsonParseStrL (jsonDumps (JVal.str t)).data = some t.data := by
  rw [jsonDumps_str_data]
  have hstep : jsonParseStrL (Char.ofNat 34 :: (jsonEscapeL t.data ++ [Char.ofNat 34]))
      = if Char.ofNat 34 = Char.ofNat 34
           ∧ (jsonEscapeL t.data ++ [Char.ofNat 34]) ≠ []
           ∧ (jsonEscapeL t.data ++ [Char.ofNat 34]).getLast? = some (Char.ofNat 34) then
          some (jsonUnescape (jsonEscapeL t.data ++ [Char.ofNat 34]).dropLast)
        else none := rfl
  rw [hstep, if_pos]
  · rw [List.dropLast_concat, jsonUnescape_jsonEscapeL]
  · refine ⟨rfl, by simp, ?_⟩
    rw [List.getLast?_concat]

/-- C1: for every state with a non-empty message list, the router
`get_state` returns `"execute_sql"` if and only if the last message is an
assistant message carrying at least one tool invocation named
`execute_query_tool`; in every other case (no tool calls, only the terminal
`SubmitFinalAnswer` tool invoked, or a non-assistant last message) it
returns `END`. -/
theorem router_execute_iff_query_tool_call (s : State) (last : Message)
    (h : s.messages.getLast? = some last) :
    (get_state s = some Route.execute_sql ↔
      (last.role = Role.assistant ∧ ∃ tc ∈ last.tool_calls, tc.name = "execute_query_tool"))
    ∧ (get_state s = some Route.execute_sql ∨ get_state s = some Route.END) := by
  unfold get_state
  rw [h]
  simp only [Option.map_some']
  constructor
  · split_ifs with h1 h2
    · refine iff_of_true rfl ⟨h1.1, ?_⟩
      simpa using h2
    · refine iff_of_false (by simp) ?_
      rintro ⟨-, tc, htc, hn⟩
      exact h2 (by simpa using ⟨tc, htc, hn⟩)
    · refine iff_of_false (by simp) ?_
      rintro ⟨hrole, tc, htc, -⟩
      exact h1 ⟨hrole, by rintro hnil; rw [hnil] at htc; exact absurd htc (by simp)⟩
  · split_ifs <;> simp

theorem router_execute_iff_query_tool_call_witness :
    (get_state ⟨[execMsg], none⟩ = some Route.execute_sql ↔
      (execMsg.role = Role.assistant ∧ ∃ tc ∈ execMsg.tool_calls, tc.name = "execute_query_tool"))
    ∧ (get_state ⟨[execMsg], none⟩ = some Route.execute_sql
        ∨ get_state ⟨[execMsg], none⟩ = some Route.END) :=
  router_execute_iff_query_tool_call ⟨[execMsg], none⟩ execMsg rfl

/-- C3: every step of the state machine is monotonically append-only on the
message history: a node's returned dict is applied through the merge rule,
which concatenates the new messages after the old list, so after any node
execution the old message list is an unchanged prefix of the new one and the
length never decreases. -/
theorem message_history_append_only (env : Env) (n : Node) (s : State) (d : Delta) :
    (applyDelta s d).messages = s.messages ++ d.messages
    ∧ s.messages <+: ((execNode env n s).1).messages
    ∧ s.messages.length ≤ ((execNode env n s).1).messages.length := by
  obtain ⟨ms, hms⟩ := execNode_messages env n s
  exact ⟨rfl, ⟨ms, hms.symm⟩, by simp [hms]⟩

/-- C8: the router is a pure deterministic function of the last message
only — two states with the same last message get the same routing decision,
whatever their earlier history, cached schema or thread identity. -/
theorem router_depends_only_on_last_message (s1 s2 : State)
    (h : s1.messages.getLast? = s2.messages.getLast?) :
    get_state s1 = get_state s2 := by
  unfold get_state
  rw [h]

theorem router_depends_only_on_last_message_witness :
    get_state ⟨[mkHuman "earlier question", mkSystem "noise", execMsg], some "cached"⟩
      = get_state ⟨[execMsg], none⟩ :=
  router_depends_only_on_last_message
    ⟨[mkHuman "earlier question", mkSystem "noise", execMsg], some "cached"⟩
    ⟨[execMsg], none⟩ rfl

/-- C9: the schema node's returned dict contains exactly one new assistant
message — content `Schema retrieved from BigQuery` when the schema was
absent and `Schema retrieved from memory` when it was already cached — and
executing the schema node appends exactly that one note to the
conversation. -/
theorem schema_node_appends_exactly_one_note (env : Env) (fetched : String) (s : State) :
    (get_schema_node fetched s).messages
      = [mkAI (match s.dataset_schema with
               | none => "Schema retrieved from BigQuery"
               | some _ => "Schema retrieved from memory") []]
    ∧ ((execNode env Node.get_schema s).1).messages
      = s.messages ++ (get_schema_node env.fetchedSchema s).messages := by
  cases h : s.dataset_schema <;>
    simp [get_schema_node, execNode, applyDelta, add_messages, h]

/-- C2 counterexample: a state whose last assistant message invokes the
terminal `SubmitFinalAnswer` tool together with `execute_query_tool` is
routed to the tool-execution node, not to `END`, so the router decision
after a `SubmitFinalAnswer` invocation is not always terminal. -/
theorem submit_then_route_counterexample :
    (∃ tc ∈ mixedMsg.tool_calls, tc.name = "SubmitFinalAnswer")
    ∧ mixedState.messages.getLast? = some mixedMsg
    ∧ get_state mixedState ≠ some Route.END
    ∧ get_state mixedState = some Route.execute_sql
    ∧ nextNode Node.data_chatbot mixedState = some Node.execute_sql := by
  refine ⟨⟨submitCall, by decide, rfl⟩, rfl, by decide, by decide, by decide⟩

/-- C2 amended: if the last message invokes `SubmitFinalAnswer` and does not
also invoke `execute_query_tool`, the router returns `END` and the
tool-execution node does not run next — the router keys on the presence of
an `execute_query_tool` invocation, so termination after the terminal tool
holds only when the query tool is not requested in the same message. -/
theorem submit_without_query_terminates (s : State) (last : Message)
    (h : s.messages.getLast? = some last)
    (_hsub : ∃ tc ∈ last.tool_calls, tc.name = "SubmitFinalAnswer")
    (hnoq : ∀ tc ∈ last.tool_calls, tc.name ≠ "execute_query_tool") :
    get_state s = some Route.END ∧ nextNode Node.data_chatbot s = none := by
  have hany : last.tool_calls.any (fun tc => tc.name == "execute_query_tool") = false := by
    rw [List.any_eq_false]
    intro tc htc
    simpa using hnoq tc htc
  have hgs : get_state s = some Route.END := by
    unfold get_state
    rw [h]
    simp only [Option.map_some']
    split_ifs with h1 h2
    · exact absurd h2 (by simp [hany])
    · rfl
    · rfl
  refine ⟨hgs, ?_⟩
  simp [nextNode, hgs]

theorem submit_without_query_terminates_witness :
    get_state submitOnlyState = some Route.END
    ∧ nextNode Node.data_chatbot submitOnlyState = none :=
  submit_without_query_terminates submitOnlyState (mkAI "" [submitCall]) rfl
    ⟨submitCall, by decide, rfl⟩ (by decide)

/-- C7 counterexample: on a thread whose schema is already cached (a
completed earlier turn), the next turn still enters the graph at the schema
node — the entry edge is `START → get_schema` unconditionally — so the
SCHEMA node does not execute on the first turn only, and re-entry is not at
the reasoning node. -/
theorem reentry_skips_schema_counterexample :
    cachedState.dataset_schema ≠ none
    ∧ entry_point = Node.get_schema
    ∧ (runTurn cenv 6 "second question" cachedState).trace.head? = some Node.get_schema
    ∧ (runTurn cenv 6 "second question" cachedState).trace ≠ [] := by
  refine ⟨by decide, rfl, by decide, by decide⟩

/-- C7 amended: every turn — first or later — re-enters the state machine at
the SCHEMA node; on a turn whose thread already has a cached schema the
schema node issues no backend metadata call and control then passes
unconditionally to the reasoning node, so only the backend fetch, not the
node execution, is limited to the first turn. -/
theorem every_turn_reenters_at_schema (env : Env) (fuel : Nat) (user : String)
    (s : State) (x : String) (h : s.dataset_schema = some x) :
    (runTurn env (fuel + 1) user s).trace.head? = some entry_point
    ∧ entry_point = Node.get_schema
    ∧ (execNode env Node.get_schema
        (applyDelta s { messages := [mkHuman user], dataset_schema := none })).2 = 0
    ∧ (∀ s2 : State, nextNode Node.get_schema s2 = some Node.data_chatbot) := by
  refine ⟨run_trace_head env fuel entry_point _, rfl, ?_, fun _ => rfl⟩
  have hx : (applyDelta s { messages := [mkHuman user], dataset_schema := none }).dataset_schema
      = some x := h
  exact execNode_calls_zero env Node.get_schema _ x hx

theorem every_turn_reenters_at_schema_witness :
    (runTurn cenv 4 "next question" cachedState).trace.head? = some entry_point
    ∧ entry_point = Node.get_schema
    ∧ (execNode cenv Node.get_schema
        (applyDelta cachedState { messages := [mkHuman "next question"], dataset_schema := none })).2 = 0
    ∧ (∀ s2 : State, nextNode Node.get_schema s2 = some Node.data_chatbot) :=
  every_turn_reenters_at_schema cenv 3 "next question" cachedState "cached-schema" rfl

/-- C4: the schema node issues a backend metadata call exactly when the
state's `dataset_schema` is `None`; once the schema is set no node of the
workflow refetches or mutates it; a whole turn run from a state with a
cached schema issues zero metadata calls; and a second turn on the same
thread (resuming the checkpointed state of a first turn that executed at
least one node) issues no metadata call at all. -/
theorem schema_fetch_at_most_once_per_thread :
    (∀ s : State, schema_fetch_count s = (if s.dataset_schema = none then 1 else 0))
    ∧ (∀ (env : Env) (n : Node) (s : State) (x : String), s.dataset_schema = some x →
        ((execNode env n s).1).dataset_schema = some x)
    ∧ (∀ (env : Env) (fuel : Nat) (user : String) (s : State) (x : String),
        s.dataset_schema = some x → (runTurn env fuel user s).calls = 0)
    ∧ (∀ (env : Env) (fuel1 fuel2 : Nat) (u1 u2 : String) (s : State), 1 ≤ fuel1 →
        (runTurn env fuel2 u2 (runTurn env fuel1 u1 s).state).calls = 0) := by
  have turnCalls : ∀ (env : Env) (fuel : Nat) (user : String) (s : State) (x : String),
      s.dataset_schema = some x → (runTurn env fuel user s).calls = 0 := by
    intro env fuel user s x h
    exact (run_preserves env fuel entry_point
      (applyDelta s { messages := [mkHuman user], dataset_schema := none }) x h).2
  refine ⟨?_, ?_, turnCalls, ?_⟩
  · intro s
    cases h : s.dataset_schema <;> simp [schema_fetch_count, h]
  · exact fun env n s x h => execNode_schema_some env n s x h
  · intro env fuel1 fuel2 u1 u2 s h1
    obtain ⟨k, rfl⟩ : ∃ k, fuel1 = k + 1 := by
      cases fuel1 with
      | zero => exact absurd h1 (by omega)
      | succ k => exact ⟨k, rfl⟩
    obtain ⟨y, hy⟩ := run_entry_schema_some env k
      (applyDelta s { messages := [mkHuman u1], dataset_schema := none })
    exact turnCalls env fuel2 u2 _ y hy

theorem schema_fetch_at_most_once_per_thread_witness :
    (runTurn cenv 3 "second question" (runTurn cenv 3 "first question" emptyState).state).calls = 0 :=
  schema_fetch_at_most_once_per_thread.2.2.2 cenv 3 3 "first question" "second question"
    emptyState (by omega)

/-- C5: with a reasoning collaborator stub that always requests the query
tool and never terminates, a run with step budget `N` (the configured
`recursion_limit`, 20 by default) halts as `limitExceeded` after exactly `N`
node executions — not before and not after — with the partial conversation
intact: the checkpointed state extends the prior history, reflecting the
last successfully completed step. -/
theorem step_budget_exhaustion_exact (backend : String → Except String (List Row))
    (fetched : String) (N : Nat) (user : String) (s : State) :
    (runTurn (loopEnv backend fetched) N user s).halt = Halt.limitExceeded
    ∧ (runTurn (loopEnv backend fetched) N user s).trace.length = N
    ∧ s.messages <+: (runTurn (loopEnv backend fetched) N user s).state.messages := by
  obtain ⟨h1, h2, t, ht⟩ := loop_run backend fetched N entry_point
    (applyDelta s { messages := [mkHuman user], dataset_schema := none })
  have ht2 : (s.messages ++ [mkHuman user]) ++ t
      = (runTurn (loopEnv backend fetched) N user s).state.messages := ht
  refine ⟨h1, h2, [mkHuman user] ++ t, ?_⟩
  rw [← List.append_assoc]
  exact ht2

/-- C6: `execute_query_tool` never lets a backend failure escape the tool
node: an exception is captured as the structured JSON error payload and
returned as the tool's result string, the tool node folds it into a
tool-result message appended to the conversation, and control passes back to
the reasoning node, so the loop continues instead of aborting. -/
theorem tool_error_folded_into_result (env : Env) (q e i c : String) (s : State)
    (hb : env.backend q = Except.error e)
    (hl : s.messages.getLast? = some (mkAI c [⟨"execute_query_tool", [("query", q)], i⟩])) :
    execute_query_tool env.backend q
      = jsonDumps (JVal.objStr [("BigQuery error", "BigQuery Error: " ++ e)])
    ∧ ((execNode env Node.execute_sql s).1).messages
      = s.messages
          ++ [mkTool (jsonDumps (JVal.objStr [("BigQuery error", "BigQuery Error: " ++ e)])) i]
    ∧ nextNode Node.execute_sql ((execNode env Node.execute_sql s).1) = some Node.data_chatbot := by
  have h1 : execute_query_tool env.backend q
      = jsonDumps (JVal.objStr [("BigQuery error", "BigQuery Error: " ++ e)]) := by
    unfold execute_query_tool
    rw [hb]
  refine ⟨h1, ?_, rfl⟩
  show (applyDelta s (tool_node env.backend s)).messages = _
  unfold tool_node
  rw [hl]
  simp [applyDelta, add_messages, mkAI, mkTool, h1]

theorem tool_error_folded_into_result_witness :
    execute_query_tool cenvErr.backend "SELECT 1"
      = jsonDumps (JVal.objStr [("BigQuery error", "BigQuery Error: " ++ "boom")])
    ∧ ((execNode cenvErr Node.execute_sql errState).1).messages
      = errState.messages
          ++ [mkTool (jsonDumps (JVal.objStr [("BigQuery error", "BigQuery Error: " ++ "boom")])) "c2"]
    ∧ nextNode Node.execute_sql ((execNode cenvErr Node.execute_sql errState).1)
      = some Node.data_chatbot :=
  tool_error_folded_into_result cenvErr "SELECT 1" "boom" "c2" "" errState rfl rfl

/-- C10: on a successful backend query the tool returns
`str(json.dumps(str(r)))` — a JSON string literal whose content is the
Python string representation of the row-dict list, not a JSON array of row
objects: the payload is double-encoded, it begins with a quote rather than
a bracket, and parsing it once yields the Python-repr string. -/
theorem success_payload_double_encoded (backend : String → Except String (List Row))
    (q : String) (rows : List Row) (hb : backend q = Except.ok rows) :
    execute_query_tool backend q = jsonDumps (JVal.str (pyReprRows rows))
    ∧ jsonParseStrL (execute_query_tool backend q).data = some (pyReprRows rows).data
    ∧ (execute_query_tool backend q).data.head? = some (Char.ofNat 34)
    ∧ (execute_query_tool backend q).data.head? ≠ some (Char.ofNat 91) := by
  have h1 : execute_query_tool backend q = jsonDumps (JVal.str (pyReprRows rows)) := by
    unfold execute_query_tool
    rw [hb]
  have h3 : (jsonDumps (JVal.str (pyReprRows rows))).data.head? = some (Char.ofNat 34) := by
    rw [jsonDumps_str_data]
    rfl
  refine ⟨h1, ?_, ?_, ?_⟩
  · rw [h1]
    exact jsonParse_dumps (pyReprRows rows)
  · rw [h1]
    exact h3
  · rw [h1, h3]
    decide

theorem success_payload_double_encoded_witness :
    execute_query_tool okBackend "SELECT 1" = jsonDumps (JVal.str (pyReprRows cRows))
    ∧ jsonParseStrL (execute_query_tool okBackend "SELECT 1").data = some (pyReprRows cRows).data
    ∧ (execute_query_tool okBackend "SELECT 1").data.head? = some (Char.ofNat 34)
    ∧ (execute_query_tool okBackend "SELECT 1").data.head? ≠ some (Char.ofNat 91) :=
  success_payload_double_encoded okBackend "SELECT 1" cRows rfl

end BqAgent
